import Mathlib

/-!
Verification of i2c-via, the I2C bit-bang adapter for the VIA 82C586B south
bridge.

A shallow embedding of `kernel/busses/i2c-via.c`.  The driver's global
`pm_io_base`, the I/O ports, the kernel's I/O region table and the bit-bang
engine's registration flag are the fields of `World`; every function of the
driver is a function on `World`.  Each call the driver makes into the host
(PCI configuration access, region bookkeeping, raw port I/O, `printk`,
`i2c_bit_add_bus`) is appended to `World.trace`, so that statements such as
"no port was written" can be made about a run.

Machine integers are natural numbers with explicit truncation: a `u8` store
is `% 256`, a `u16` store is `% 65536`.
-/

namespace I2cVia

/-! ## Constants of the driver -/

/-- Macro `#define PM_CFG_REVID 0x08`: silicon revision code. -/
def PM_CFG_REVID : Nat := 0x08
/-- Macro `#define PM_CFG_IOBASE0 0x20`. -/
def PM_CFG_IOBASE0 : Nat := 0x20
/-- Macro `#define PM_CFG_IOBASE1 0x48`. -/
def PM_CFG_IOBASE1 : Nat := 0x48
/-- Macro `#define I2C_SCL 0x02`: clock bit in DIR/OUT/IN register. -/
def I2C_SCL : Nat := 0x02
/-- Macro `#define I2C_SDA 0x04`. -/
def I2C_SDA : Nat := 0x04
/-- Macro `#define IOSPACE 0x06`: length of the reserved io-region. -/
def IOSPACE : Nat := 0x06
/-- Macro `#define IOTEXT "VIA i2c"`. -/
def IOTEXT : String := "VIA i2c"

/-- Macro `#define I2C_DIR (pm_io_base+0x40)`; the sum is computed in `int`, so it
does not wrap for a 16-bit `pm_io_base`. -/
def I2C_DIR (pm_io_base : Nat) : Nat := pm_io_base + 0x40
/-- Macro `#define I2C_OUT (pm_io_base+0x42)`. -/
def I2C_OUT (pm_io_base : Nat) : Nat := pm_io_base + 0x42
/-- Macro `#define I2C_IN (pm_io_base+0x44)`. -/
def I2C_IN (pm_io_base : Nat) : Nat := pm_io_base + 0x44

/-! ## Constants of the kernel headers

These come from `linux/pci.h` and `linux/errno.h`, which the driver includes. -/

/-- Kernel constant `PCI_VENDOR_ID_VIA`. -/
def VENDOR : Nat := 0x1106
/-- Kernel constant `PCI_DEVICE_ID_VIA_82C586_3`. -/
def DEVICE : Nat := 0x3040
/-- Kernel constant `PCIBIOS_SUCCESSFUL`. -/
def PCIBIOS_SUCCESSFUL : Nat := 0x00
/-- Kernel constant `ENODEV` of `linux/errno.h`. -/
def ENODEV : Int := 19
/-- Kernel constant `EBUSY` of `linux/errno.h`. -/
def EBUSY : Int := 16

/-- The bit pattern of C's `~x` on a 32-bit `int`. -/
def bnot32 (x : Nat) : Nat := 0xFFFFFFFF ^^^ x

/-! ## The host and the world -/

/-- One call of the driver into the host, in the order the driver makes them. -/
inductive Event where
  | pciPresent
  | pciFind (vendor device : Nat)
  | cfgByte (bus devfn off : Nat)
  | cfgWord (bus devfn off : Nat)
  | checkRegion (start len : Nat)
  | requestRegion (start len : Nat) (name : String)
  | releaseRegion (start len : Nat)
  | inb (port : Nat)
  | outb (value port : Nat)
  | addBus
  | printk (msg : String)
  deriving DecidableEq

/-- What a PCI configuration read hands back: the status it returns and the
value it stores through its pointer argument. -/
structure CfgRead where
  status : Nat
  value : Nat
  deriving DecidableEq

/-- The part of the machine the driver only queries: the PCI bus and the answer
of the bit-bang engine.  `find vendor device` is the first matching device as
`(bus, devfn)`; `addBus` is the value `i2c_bit_add_bus(&bit_via_ops)` returns.
The engine is an external collaborator: it is taken to touch no port and no
region when the adapter is added. -/
structure Host where
  present : Bool
  find : Nat → Nat → Option (Nat × Nat)
  readByte : Nat → Nat → Nat → CfgRead
  readWord : Nat → Nat → Nat → CfgRead
  addBus : Int

/-- How a port read is answered.  `latched`: every port reads back the byte
last written to it.  `loopback`: as `latched`, but the input register
(`I2C_IN`) is wired to the output register (`I2C_OUT`), as in a loopback
test. -/
inductive PortModel where
  | latched
  | loopback
  deriving DecidableEq

/-- The mutable state: the global `u16 pm_io_base`, the port contents, the
kernel's table of reserved I/O regions `(start, length)`, whether the adapter
is registered with the bit-bang engine, and the calls made so far. -/
structure World where
  pm_io_base : Nat
  ports : Nat → Nat
  model : PortModel
  regions : List (Nat × Nat)
  registered : Bool
  trace : List Event

/-- Append one call to the trace. -/
def World.log (w : World) (e : Event) : World :=
  { w with trace := w.trace ++ [e] }

/-! ## Raw port I/O (`asm/io.h`) -/

/-- The byte a read of `port` yields in world `w`. -/
def portValue (w : World) (port : Nat) : Nat :=
  match w.model with
  | .latched => w.ports port % 256
  | .loopback =>
    if port = I2C_IN w.pm_io_base then w.ports (I2C_OUT w.pm_io_base) % 256
    else w.ports port % 256

/-- Modelled from the spec: `inb(port)` of the raw port I/O interface, a byte
read at an absolute port address.  The port is the `int` value of the register
macro; for a base left by a successful `find_via` it is below 65536, so a
16-bit port argument does not truncate it. -/
def inb (w : World) (port : Nat) : Nat × World :=
  (portValue w port, w.log (.inb port))

/-- Modelled from the spec: `outb(value, port)` of the raw port I/O interface, a
byte write at an absolute port address; `value` is an `unsigned char`. -/
def outb (w : World) (value port : Nat) : World :=
  { w with
    ports := fun p => if p = port then value % 256 else w.ports p
    trace := w.trace ++ [.outb (value % 256) port] }

/-- Modelled from the spec: `printk(msg)`, the diagnostic of the host; the
format arguments are not recorded. -/
def printk (w : World) (msg : String) : World :=
  w.log (.printk msg)

/-! ## I/O region bookkeeping (`linux/ioport.h`) -/

/-- Two ranges `(start, length)` share a port. -/
def overlaps (a b : Nat × Nat) : Bool :=
  decide (a.1 < b.1 + b.2) && decide (b.1 < a.1 + a.2)

/-- Modelled from the spec: `check_region` of the host's I/O range reservation
interface ("check-free"); negative when an overlapping claim exists. -/
def check_region (w : World) (start len : Nat) : Int × World :=
  (if w.regions.any (overlaps (start, len)) then -EBUSY else 0,
   w.log (.checkRegion start len))

/-- Modelled from the spec: `request_region` of the host's I/O range
reservation interface ("reserve-with-tag"). -/
def request_region (w : World) (start len : Nat) (name : String) : World :=
  { w with
    regions := (start, len) :: w.regions
    trace := w.trace ++ [.requestRegion start len name] }

/-- Modelled from the spec: `release_region` of the host's I/O range
reservation interface ("release"). -/
def release_region (w : World) (start len : Nat) : World :=
  { w with
    regions := w.regions.erase (start, len)
    trace := w.trace ++ [.releaseRegion start len] }

/-! ## PCI access, both generations (`linux/pci.h`, `linux/bios32.h`) -/

/-- Modelled from the spec: `pci_present()`, the presence check of the newer
peripheral bus query interface. -/
def pci_present (h : Host) (w : World) : Bool × World :=
  (h.present, w.log .pciPresent)

/-- Modelled from the spec: `pci_find_device(vendor, device, NULL)`, the
find-device-by-identity of the newer interface; `none` is the null pointer. -/
def pci_find_device (h : Host) (w : World) (vendor device : Nat) :
    Option (Nat × Nat) × World :=
  (h.find vendor device, w.log (.pciFind vendor device))

/-- Modelled from the spec: `pci_read_config_byte(dev, off, &out)`, the
configuration byte read of the newer interface. -/
def pci_read_config_byte (h : Host) (w : World) (dev : Nat × Nat) (off : Nat) :
    CfgRead × World :=
  (h.readByte dev.1 dev.2 off, w.log (.cfgByte dev.1 dev.2 off))

/-- Modelled from the spec: `pci_read_config_word(dev, off, &out)`, the
configuration word read of the newer interface. -/
def pci_read_config_word (h : Host) (w : World) (dev : Nat × Nat) (off : Nat) :
    CfgRead × World :=
  (h.readWord dev.1 dev.2 off, w.log (.cfgWord dev.1 dev.2 off))

/-- Modelled from the spec: `pcibios_present()`, the presence check of the older
peripheral bus query interface. -/
def pcibios_present (h : Host) (w : World) : Bool × World :=
  (h.present, w.log .pciPresent)

/-- Modelled from the spec: `pcibios_find_device(vendor, device, 0, &bus,
&devfn)`, the find-device-by-identity of the older interface: the status
(non-zero when no device matches) and the `(bus, devfn)` it stores. -/
def pcibios_find_device (h : Host) (w : World) (vendor device : Nat) :
    (Nat × Nat × Nat) × World :=
  (match h.find vendor device with
   | some (bus, devfn) => (PCIBIOS_SUCCESSFUL, bus, devfn)
   | none => (0x86, 0, 0),
   w.log (.pciFind vendor device))

/-- Modelled from the spec: `pcibios_read_config_byte(bus, devfn, off, &out)`,
the configuration byte read of the older interface. -/
def pcibios_read_config_byte (h : Host) (w : World) (bus devfn off : Nat) :
    CfgRead × World :=
  (h.readByte bus devfn off, w.log (.cfgByte bus devfn off))

/-- Modelled from the spec: `pcibios_read_config_word(bus, devfn, off, &out)`,
the configuration word read of the older interface. -/
def pcibios_read_config_word (h : Host) (w : World) (bus devfn off : Nat) :
    CfgRead × World :=
  (h.readWord bus devfn off, w.log (.cfgWord bus devfn off))

/-- Modelled from the spec: `i2c_bit_add_bus(&bit_via_ops)`, the bus
registration call of the external protocol engine (`algo-bit.h`), whose body
is not among the sources: it hands back the engine's answer, and the adapter
is registered when the answer is 0. -/
def i2c_bit_add_bus (h : Host) (w : World) : Int × World :=
  (h.addBus,
   { w with
     registered := w.registered || decide (h.addBus = 0)
     trace := w.trace ++ [.addBus] })

/-! ## The driver -/

/-- Driver function `bit_via_setscl(data, state)`:
`outb(state ? inb(I2C_OUT)|I2C_SCL : inb(I2C_OUT)&~I2C_SCL, I2C_OUT)`. -/
def bit_via_setscl (w : World) (state : Int) : World :=
  let r := inb w (I2C_OUT w.pm_io_base)
  outb r.2 (if state ≠ 0 then r.1 ||| I2C_SCL else r.1 &&& bnot32 I2C_SCL)
    (I2C_OUT r.2.pm_io_base)

/-- Driver function `bit_via_setsda(data, state)`:
`outb(state ? inb(I2C_OUT)|I2C_SDA : inb(I2C_OUT)&~I2C_SDA, I2C_OUT)`. -/
def bit_via_setsda (w : World) (state : Int) : World :=
  let r := inb w (I2C_OUT w.pm_io_base)
  outb r.2 (if state ≠ 0 then r.1 ||| I2C_SDA else r.1 &&& bnot32 I2C_SDA)
    (I2C_OUT r.2.pm_io_base)

/-- Driver function `bit_via_getscl(data)`: `return (0 != (inb(I2C_IN) & I2C_SCL))`. -/
def bit_via_getscl (w : World) : Int × World :=
  let r := inb w (I2C_IN w.pm_io_base)
  (if 0 ≠ r.1 &&& I2C_SCL then 1 else 0, r.2)

/-- Driver function `bit_via_getsda(data)`: `return (0 != (inb(I2C_IN) & I2C_SDA))`. -/
def bit_via_getsda (w : World) : Int × World :=
  let r := inb w (I2C_IN w.pm_io_base)
  (if 0 ≠ r.1 &&& I2C_SDA then 1 else 0, r.2)

/-- The `switch(rev)` of `find_via`, the same text in both variants. -/
def find_via_switch (rev : Nat) : Nat :=
  if rev = 0x00 then PM_CFG_IOBASE0
  else if rev = 0x01 ∨ rev = 0x10 then PM_CFG_IOBASE1
  else PM_CFG_IOBASE1

/-- Driver function `find_via` for `LINUX_VERSION_CODE >= 0x020136` (the `pci_*`
interface).  The word read stores through `&pm_io_base` whatever the host hands
back, also when it reports a failure. -/
def find_via_pci (h : Host) (w : World) : Int × World :=
  let p := pci_present h w
  if !p.1 then (-ENODEV, p.2)
  else
    let s := pci_find_device h p.2 VENDOR DEVICE
    match s.1 with
    | none => (-ENODEV, printk s.2 "vt82c586b not found\n")
    | some s_bridge =>
      let rb := pci_read_config_byte h s.2 s_bridge PM_CFG_REVID
      if PCIBIOS_SUCCESSFUL ≠ rb.1.status then (-ENODEV, rb.2)
      else
        let rev := rb.1.value % 256
        let base := find_via_switch rev
        let rw := pci_read_config_word h rb.2 s_bridge base
        let w1 : World := { rw.2 with pm_io_base := rw.1.value % 65536 }
        if PCIBIOS_SUCCESSFUL ≠ rw.1.status then (-ENODEV, w1)
        else (0, { w1 with pm_io_base := w1.pm_io_base &&& (0xff <<< 8) })

/-- Driver function `find_via` for older kernels (the `pcibios_*` interface). -/
def find_via_pcibios (h : Host) (w : World) : Int × World :=
  let p := pcibios_present h w
  if !p.1 then (-ENODEV, p.2)
  else
    let s := pcibios_find_device h p.2 VENDOR DEVICE
    if s.1.1 ≠ 0 then (-ENODEV, printk s.2 "vt82c586b not found\n")
    else
      let VIA_bus := s.1.2.1
      let VIA_devfn := s.1.2.2
      let rb := pcibios_read_config_byte h s.2 VIA_bus VIA_devfn PM_CFG_REVID
      if PCIBIOS_SUCCESSFUL ≠ rb.1.status then (-ENODEV, rb.2)
      else
        let rev := rb.1.value % 256
        let base := find_via_switch rev
        let rw := pcibios_read_config_word h rb.2 VIA_bus VIA_devfn base
        let w1 : World := { rw.2 with pm_io_base := rw.1.value % 65536 }
        if PCIBIOS_SUCCESSFUL ≠ rw.1.status then (-ENODEV, w1)
        else (0, { w1 with pm_io_base := w1.pm_io_base &&& (0xff <<< 8) })

/-- Which of the two `find_via` texts the preprocessor keeps. -/
inductive Build where
  | pci
  | pcibios
  deriving DecidableEq

/-- Driver function `find_via()` of the chosen build. -/
def find_via (b : Build) (h : Host) (w : World) : Int × World :=
  match b with
  | .pci => find_via_pci h w
  | .pcibios => find_via_pcibios h w

/-- Driver function `init_i2c_via()`. -/
def init_i2c_via (b : Build) (h : Host) (w : World) : Int × World :=
  let f := find_via b h w
  if f.1 < 0 then
    (-ENODEV, printk f.2 "Error while reading PCI configuration\n")
  else
    let c := check_region f.2 (I2C_DIR f.2.pm_io_base) IOSPACE
    if c.1 < 0 then
      (-EBUSY, printk c.2 "IO 0x%x-0x%x already in use\n")
    else
      let w1 := request_region c.2 (I2C_DIR c.2.pm_io_base) IOSPACE IOTEXT
      let d := inb w1 (I2C_DIR w1.pm_io_base)
      let w2 := outb d.2 (d.1 ||| I2C_SDA ||| I2C_SCL) (I2C_DIR d.2.pm_io_base)
      let o := inb w2 (I2C_OUT w2.pm_io_base)
      let w3 := outb o.2 (o.1 ||| I2C_SDA ||| I2C_SCL) (I2C_OUT o.2.pm_io_base)
      let a := i2c_bit_add_bus h w3
      if a.1 = 0 then
        (0, printk a.2 "Via i2c: Module succesfully loaded\n")
      else
        let d2 := inb a.2 (I2C_DIR a.2.pm_io_base)
        let w4 := outb d2.2 (d2.1 &&& bnot32 (I2C_SDA ||| I2C_SCL))
          (I2C_DIR d2.2.pm_io_base)
        let w5 := release_region w4 (I2C_DIR w4.pm_io_base) IOSPACE
        (-ENODEV, printk w5 "Via i2c: Algo-bit error, couldn't register bus\n")

/-! ## Reading a run -/

/-- The calls a run added: the trace after the run with the trace before it
taken off the front. -/
def newEvents (before after : World) : List Event :=
  after.trace.drop before.trace.length

/-- The event is a port read or write. -/
def Event.isPort : Event → Bool
  | .inb _ => true
  | .outb _ _ => true
  | _ => false

/-- The event is a port write. -/
def Event.isWrite : Event → Bool
  | .outb _ _ => true
  | _ => false

/-- The event checks, reserves or releases an I/O region. -/
def Event.isRegion : Event → Bool
  | .checkRegion _ _ => true
  | .requestRegion _ _ _ => true
  | .releaseRegion _ _ => true
  | _ => false

/-- The port an event touches, if it is a port access. -/
def Event.port? : Event → Option Nat
  | .inb p => some p
  | .outb _ p => some p
  | _ => none

/-- A host with the chip at `(bus, devfn) = (0, 0x3b)`, revision byte `rev`, and
the word `word` in the base field `field`; the engine answers `answer`. -/
def sampleHost (rev field word : Nat) (answer : Int) : Host where
  present := true
  find := fun v d => if v = VENDOR ∧ d = DEVICE then some (0, 0x3b) else none
  readByte := fun _ _ off =>
    if off = PM_CFG_REVID then ⟨PCIBIOS_SUCCESSFUL, rev⟩ else ⟨0x87, 0⟩
  readWord := fun _ _ off =>
    if off = field then ⟨PCIBIOS_SUCCESSFUL, word⟩ else ⟨0x87, 0⟩
  addBus := answer

/-- A freshly booted world: `pm_io_base` is 0, every port holds 0, nothing is
reserved or registered. -/
def freshWorld (m : PortModel) : World where
  pm_io_base := 0
  ports := fun _ => 0
  model := m
  regions := []
  registered := false
  trace := []

/-- The configuration offset of a word read, if the event is one. -/
def Event.cfgWordOff? : Event → Option Nat
  | .cfgWord _ _ off => some off
  | _ => none

/-- The event reserves or releases an I/O region. -/
def Event.isReserve : Event → Bool
  | .requestRegion _ _ _ => true
  | .releaseRegion _ _ => true
  | _ => false

/-- One call of the bit-bang engine to a line-setting primitive. -/
inductive LineCall where
  | scl (state : Int)
  | sda (state : Int)
  deriving DecidableEq

/-- Run one primitive. -/
def LineCall.run (c : LineCall) (w : World) : World :=
  match c with
  | .scl state => bit_via_setscl w state
  | .sda state => bit_via_setsda w state

/-- Run a sequence of `bit_via_setscl` / `bit_via_setsda` calls, first to last. -/
def runCalls (cs : List LineCall) (w : World) : World :=
  cs.foldl (fun acc c => c.run acc) w

/-- The call sets the clock line. -/
def LineCall.isScl : LineCall → Bool
  | .scl _ => true
  | .sda _ => false

/-- The call sets the data line. -/
def LineCall.isSda : LineCall → Bool
  | .scl _ => false
  | .sda _ => true

/-- The four ways the locator can fail. -/
def LocatorFails (h : Host) : Prop :=
  h.present = false ∨
  h.find VENDOR DEVICE = none ∨
  (∃ dev, h.find VENDOR DEVICE = some dev ∧
    (h.readByte dev.1 dev.2 PM_CFG_REVID).status ≠ PCIBIOS_SUCCESSFUL) ∨
  (∃ dev, h.find VENDOR DEVICE = some dev ∧
    (h.readWord dev.1 dev.2
      (find_via_switch ((h.readByte dev.1 dev.2 PM_CFG_REVID).value % 256))).status
        ≠ PCIBIOS_SUCCESSFUL)

/-- The calls `init_i2c_via` makes to claim the range and raise both lines. -/
def claimEvents (w : World) (base : Nat) : List Event :=
  [.checkRegion (I2C_DIR base) IOSPACE,
   .requestRegion (I2C_DIR base) IOSPACE IOTEXT,
   .inb (I2C_DIR base),
   .outb (w.ports (I2C_DIR base) % 256 ||| 0x06) (I2C_DIR base),
   .inb (I2C_OUT base),
   .outb (w.ports (I2C_OUT base) % 256 ||| 0x06) (I2C_OUT base),
   .addBus]

/-- The ports after both lines were raised. -/
def raisedPorts (w : World) (base : Nat) : Nat → Nat :=
  fun p =>
    if p = I2C_OUT base then w.ports (I2C_OUT base) % 256 ||| 0x06
    else if p = I2C_DIR base then w.ports (I2C_DIR base) % 256 ||| 0x06
    else w.ports p

/-! ## Arithmetic of the mask and of the line bits -/

theorem mask_high_byte (x : Nat) (hx : x < 65536) :
    x &&& (0xff <<< 8) = x / 256 * 256 := by
  apply Nat.eq_of_testBit_eq
  intro i
  have h1 : (0xff : Nat) = 2 ^ 8 - 1 := by norm_num
  have h2 : x / 256 * 256 = (x >>> 8) <<< 8 := by
    rw [Nat.shiftRight_eq_div_pow, Nat.shiftLeft_eq]
  rw [h2, h1]
  simp only [Nat.testBit_land, Nat.testBit_shiftLeft, Nat.testBit_two_pow_sub_one,
    Nat.testBit_shiftRight]
  by_cases h8 : 8 ≤ i
  · by_cases h16 : i < 16
    · have h3 : i - 8 < 8 := by omega
      have e : 8 + (i - 8) = i := by omega
      simp [h8, h3, e]
    · have h3 : ¬ (i - 8 < 8) := by omega
      have hlt : x.testBit i = false := by
        apply Nat.testBit_lt_two_pow
        calc x < 2 ^ 16 := hx
          _ ≤ 2 ^ i := Nat.pow_le_pow_right (by norm_num) (by omega)
      simp [h8, h3, hlt]
  · simp [h8]

theorem mask_low_byte_zero (x : Nat) : (x % 65536 &&& (0xff <<< 8)) % 256 = 0 := by
  rw [mask_high_byte _ (Nat.mod_lt _ (by norm_num))]
  exact Nat.mul_mod_left _ _

theorem mask_le (x : Nat) : x % 65536 &&& (0xff <<< 8) ≤ 0xFF00 := by
  rw [mask_high_byte _ (Nat.mod_lt _ (by norm_num))]
  have : x % 65536 < 65536 := Nat.mod_lt _ (by norm_num)
  omega

set_option maxRecDepth 100000 in
/-- Setting or clearing bit `k` (1 or 2) of a byte leaves every other bit. -/
theorem byte_bit_frame : ∀ v < 256, ∀ i < 8,
    (i ≠ 1 → ((v ||| I2C_SCL) % 256).testBit i = v.testBit i ∧
      ((v &&& bnot32 I2C_SCL) % 256).testBit i = v.testBit i) ∧
    (i ≠ 2 → ((v ||| I2C_SDA) % 256).testBit i = v.testBit i ∧
      ((v &&& bnot32 I2C_SDA) % 256).testBit i = v.testBit i) := by
  decide

set_option maxRecDepth 100000 in
/-- Setting a line bit sets it, clearing it clears it. -/
theorem byte_bit_value : ∀ v < 256,
    ((v ||| I2C_SCL) % 256).testBit 1 = true ∧
    ((v &&& bnot32 I2C_SCL) % 256).testBit 1 = false ∧
    ((v ||| I2C_SDA) % 256).testBit 2 = true ∧
    ((v &&& bnot32 I2C_SDA) % 256).testBit 2 = false ∧
    (v ||| I2C_SCL) % 256 &&& I2C_SCL ≠ 0 ∧
    (v &&& bnot32 I2C_SCL) % 256 &&& I2C_SCL = 0 ∧
    (v ||| I2C_SDA) % 256 &&& I2C_SDA ≠ 0 ∧
    (v &&& bnot32 I2C_SDA) % 256 &&& I2C_SDA = 0 := by
  decide

set_option maxRecDepth 100000 in
/-- The byte arithmetic of `init_i2c_via`: both line bits set, or both cleared. -/
theorem byte_both_bits : ∀ v < 256,
    (v ||| I2C_SDA ||| I2C_SCL) % 256 = v ||| 0x06 ∧
    (v &&& bnot32 (I2C_SDA ||| I2C_SCL)) % 256 = v &&& 0xF9 ∧
    ((v ||| 0x06) &&& bnot32 (I2C_SDA ||| I2C_SCL)) % 256 = v &&& 0xF9 ∧
    (v ||| 0x06) % 256 = v ||| 0x06 ∧
    (v ||| 0x06) &&& 0x06 = 0x06 ∧
    (v &&& 0xF9) &&& 0x06 = 0 ∧
    (v ||| 0x06) &&& 0xF9 = v &&& 0xF9 ∧
    (v &&& 0xF9) &&& 0xF9 = v &&& 0xF9 := by
  decide

/-- A byte has no bit at position 8 or above. -/
theorem byte_high_bits (v i : Nat) (hi : 8 ≤ i) : (v % 256).testBit i = false := by
  apply Nat.testBit_lt_two_pow
  calc v % 256 < 2 ^ 8 := Nat.mod_lt _ (by norm_num)
    _ ≤ 2 ^ i := Nat.pow_le_pow_right (by norm_num) hi

/-- The output register reads back its content under either port model. -/
theorem portValue_out (w : World) :
    portValue w (I2C_OUT w.pm_io_base) = w.ports (I2C_OUT w.pm_io_base) % 256 := by
  unfold portValue
  cases w.model <;> simp [I2C_OUT, I2C_IN]

/-- The direction register reads back its content under either port model. -/
theorem portValue_dir (w : World) :
    portValue w (I2C_DIR w.pm_io_base) = w.ports (I2C_DIR w.pm_io_base) % 256 := by
  unfold portValue
  cases w.model <;> simp [I2C_DIR, I2C_IN]

/-- A port read yields a byte. -/
theorem portValue_lt (w : World) (p : Nat) : portValue w p < 256 := by
  unfold portValue
  cases w.model <;> simp only <;> (try split_ifs) <;> exact Nat.mod_lt _ (by norm_num)

/-! ## What `find_via` does -/

/-- When the bus is present, the chip is found and both configuration reads
succeed, `find_via` returns 0 and leaves the masked word in `pm_io_base`; it
makes four calls and changes nothing else. -/
theorem find_via_ok (b : Build) (h : Host) (w : World) (dev : Nat × Nat)
    (hp : h.present = true) (hf : h.find VENDOR DEVICE = some dev)
    (hb : (h.readByte dev.1 dev.2 PM_CFG_REVID).status = PCIBIOS_SUCCESSFUL)
    (hw : (h.readWord dev.1 dev.2
      (find_via_switch ((h.readByte dev.1 dev.2 PM_CFG_REVID).value % 256))).status
        = PCIBIOS_SUCCESSFUL) :
    find_via b h w = (0,
      { w with
        pm_io_base := (h.readWord dev.1 dev.2
          (find_via_switch ((h.readByte dev.1 dev.2 PM_CFG_REVID).value % 256))).value
            % 65536 &&& (0xff <<< 8)
        trace := w.trace ++ [.pciPresent, .pciFind VENDOR DEVICE,
          .cfgByte dev.1 dev.2 PM_CFG_REVID,
          .cfgWord dev.1 dev.2
            (find_via_switch ((h.readByte dev.1 dev.2 PM_CFG_REVID).value % 256))] }) := by
  obtain ⟨bus, devfn⟩ := dev
  simp only [PCIBIOS_SUCCESSFUL] at hb hw
  cases b <;>
    simp [find_via, find_via_pci, find_via_pcibios, pci_present, pci_find_device,
      pci_read_config_byte, pci_read_config_word, pcibios_present, pcibios_find_device,
      pcibios_read_config_byte, pcibios_read_config_word, World.log, PCIBIOS_SUCCESSFUL,
      hp, hf, hb, hw]

/-- A failing locator returns `-ENODEV`, touches no port, region or
registration, and calls only the PCI interface and `printk`. -/
theorem find_via_fail (b : Build) (h : Host) (w : World) (hfail : LocatorFails h) :
    (find_via b h w).1 = -ENODEV ∧
    (find_via b h w).2.ports = w.ports ∧
    (find_via b h w).2.regions = w.regions ∧
    (find_via b h w).2.registered = w.registered ∧
    (find_via b h w).2.model = w.model ∧
    ∃ evs, (find_via b h w).2.trace = w.trace ++ evs ∧
      ∀ e ∈ evs, e.isPort = false ∧ e.isRegion = false ∧ e ≠ .addBus := by
  by_cases hp : h.present = true
  · cases hfind : h.find VENDOR DEVICE with
    | none =>
      cases b <;>
        simp [find_via, find_via_pci, find_via_pcibios, pci_present, pci_find_device,
          pcibios_present, pcibios_find_device, World.log, printk, hp, hfind,
          Event.isPort, Event.isRegion]
    | some dev =>
      obtain ⟨bus, devfn⟩ := dev
      by_cases hb : (h.readByte bus devfn PM_CFG_REVID).status = 0
      · by_cases hw : (h.readWord bus devfn
            (find_via_switch ((h.readByte bus devfn PM_CFG_REVID).value % 256))).status = 0
        · exfalso
          rcases hfail with h1 | h1 | ⟨d, h1, h2⟩ | ⟨d, h1, h2⟩
          · simp [hp] at h1
          · simp [hfind] at h1
          · rw [hfind] at h1
            cases h1
            exact h2 hb
          · rw [hfind] at h1
            cases h1
            exact h2 hw
        · cases b <;>
            simp [find_via, find_via_pci, find_via_pcibios, pci_present, pci_find_device,
              pci_read_config_byte, pci_read_config_word, pcibios_present,
              pcibios_find_device, pcibios_read_config_byte, pcibios_read_config_word,
              World.log, printk, PCIBIOS_SUCCESSFUL, hp, hfind, hb, Ne.symm hw,
              Event.isPort, Event.isRegion]
      · cases b <;>
          simp [find_via, find_via_pci, find_via_pcibios, pci_present, pci_find_device,
            pci_read_config_byte, pcibios_present, pcibios_find_device,
            pcibios_read_config_byte, World.log, printk, PCIBIOS_SUCCESSFUL, hp, hfind,
            Ne.symm hb, Event.isPort, Event.isRegion]
  · cases b <;>
      simp [find_via, find_via_pci, find_via_pcibios, pci_present, pcibios_present,
        World.log, hp, Event.isPort, Event.isRegion]

/-- Either the locator fails in one of the four ways, or every step succeeds. -/
theorem locator_cases (h : Host) :
    LocatorFails h ∨
    ∃ dev, h.present = true ∧ h.find VENDOR DEVICE = some dev ∧
      (h.readByte dev.1 dev.2 PM_CFG_REVID).status = PCIBIOS_SUCCESSFUL ∧
      (h.readWord dev.1 dev.2
        (find_via_switch ((h.readByte dev.1 dev.2 PM_CFG_REVID).value % 256))).status
          = PCIBIOS_SUCCESSFUL := by
  by_cases hp : h.present = true
  · cases hfind : h.find VENDOR DEVICE with
    | none => exact Or.inl (Or.inr (Or.inl hfind))
    | some dev =>
      by_cases hb : (h.readByte dev.1 dev.2 PM_CFG_REVID).status = PCIBIOS_SUCCESSFUL
      · by_cases hw : (h.readWord dev.1 dev.2
            (find_via_switch ((h.readByte dev.1 dev.2 PM_CFG_REVID).value % 256))).status
              = PCIBIOS_SUCCESSFUL
        · exact Or.inr ⟨dev, hp, rfl, hb, hw⟩
        · exact Or.inl (Or.inr (Or.inr (Or.inr ⟨dev, hfind, hw⟩)))
      · exact Or.inl (Or.inr (Or.inr (Or.inl ⟨dev, hfind, hb⟩)))
  · left; left; simpa using hp

/-! ## The locator: base field and mask -/

/-- C1: when the chip is found and its revision byte reads as `rev` (any value
0..255), `find_via` of either build reads exactly one configuration word, at
offset 0x20 (`PM_CFG_IOBASE0`) if and only if `rev = 0x00` and at offset 0x48
(`PM_CFG_IOBASE1`) for every other revision; on success `pm_io_base` is the
masked word of that field. -/
theorem find_via_selects_base_field (b : Build) (h : Host) (w : World)
    (dev : Nat × Nat) (rev : Nat) (hrev : rev < 256) (hp : h.present = true)
    (hf : h.find VENDOR DEVICE = some dev)
    (hb : h.readByte dev.1 dev.2 PM_CFG_REVID = ⟨PCIBIOS_SUCCESSFUL, rev⟩) :
    (newEvents w (find_via b h w).2).filterMap Event.cfgWordOff?
        = [if rev = 0x00 then 0x20 else 0x48] ∧
    (0x20 ∈ (newEvents w (find_via b h w).2).filterMap Event.cfgWordOff? ↔ rev = 0x00) ∧
    (0x48 ∈ (newEvents w (find_via b h w).2).filterMap Event.cfgWordOff? ↔ rev ≠ 0x00) ∧
    ((find_via b h w).1 = 0 →
      (find_via b h w).2.pm_io_base
        = (h.readWord dev.1 dev.2 (if rev = 0x00 then 0x20 else 0x48)).value % 65536
            &&& 0xFF00) := by
  obtain ⟨bus, devfn⟩ := dev
  have hmod : rev % 256 = rev := Nat.mod_eq_of_lt hrev
  have hsw : find_via_switch rev = if rev = 0x00 then 0x20 else 0x48 := by
    unfold find_via_switch PM_CFG_IOBASE0 PM_CFG_IOBASE1
    split_ifs <;> rfl
  have key : (newEvents w (find_via b h w).2).filterMap Event.cfgWordOff?
        = [if rev = 0x00 then 0x20 else 0x48] ∧
      ((find_via b h w).1 = 0 →
        (find_via b h w).2.pm_io_base
          = (h.readWord bus devfn (if rev = 0x00 then 0x20 else 0x48)).value % 65536
              &&& 0xFF00) := by
    by_cases hw : (h.readWord bus devfn (if rev = 0 then 32 else 72)).status = 0
    · cases b <;>
        simp [find_via, find_via_pci, find_via_pcibios, pci_present, pci_find_device,
          pci_read_config_byte, pci_read_config_word, pcibios_present,
          pcibios_find_device, pcibios_read_config_byte, pcibios_read_config_word,
          World.log, PCIBIOS_SUCCESSFUL, hp, hf, hb, hw, hmod, newEvents,
          Event.cfgWordOff?, hsw]
    · cases b <;>
        simp [find_via, find_via_pci, find_via_pcibios, pci_present, pci_find_device,
          pci_read_config_byte, pci_read_config_word, pcibios_present,
          pcibios_find_device, pcibios_read_config_byte, pcibios_read_config_word,
          World.log, PCIBIOS_SUCCESSFUL, hp, hf, hb, Ne.symm hw, hmod, newEvents,
          Event.cfgWordOff?, hsw, ENODEV]
  refine ⟨key.1, ?_, ?_, key.2⟩
  · rw [key.1]
    by_cases h0 : rev = 0 <;> simp [h0]
  · rw [key.1]
    by_cases h0 : rev = 0 <;> simp [h0]

/-- C1 at a concrete bus: revision 0x10 makes the pcibios build read offset 0x48. -/
theorem find_via_selects_base_field_witness :
    (sampleHost 0x10 0x48 0x50FF 0).find VENDOR DEVICE = some (0, 0x3b) ∧
    (sampleHost 0x10 0x48 0x50FF 0).readByte 0 0x3b PM_CFG_REVID
      = ⟨PCIBIOS_SUCCESSFUL, 0x10⟩ ∧
    (newEvents (freshWorld .latched)
        (find_via .pcibios (sampleHost 0x10 0x48 0x50FF 0) (freshWorld .latched)).2).filterMap
      Event.cfgWordOff? = [0x48] :=
  ⟨by decide, by decide,
   (find_via_selects_base_field .pcibios (sampleHost 0x10 0x48 0x50FF 0)
    (freshWorld .latched) (0, 0x3b) 0x10 (by decide) rfl (by decide) (by decide)).1⟩

/-- C2: when every step of the locator succeeds and the selected base field
holds the 16-bit word `word`, `find_via` of either build returns 0 and leaves
`pm_io_base = word AND 0xFF00`, which is `word` rounded down to a multiple of
256: its low byte is zero and its high byte is the high byte of `word`. -/
theorem find_via_masks_low_byte (b : Build) (h : Host) (w : World) (dev : Nat × Nat)
    (word : Nat) (hword : word < 65536) (hp : h.present = true)
    (hf : h.find VENDOR DEVICE = some dev)
    (hb : (h.readByte dev.1 dev.2 PM_CFG_REVID).status = PCIBIOS_SUCCESSFUL)
    (hw : h.readWord dev.1 dev.2
        (find_via_switch ((h.readByte dev.1 dev.2 PM_CFG_REVID).value % 256))
      = ⟨PCIBIOS_SUCCESSFUL, word⟩) :
    (find_via b h w).1 = 0 ∧
    (find_via b h w).2.pm_io_base = word &&& 0xFF00 ∧
    (find_via b h w).2.pm_io_base = word / 256 * 256 ∧
    (find_via b h w).2.pm_io_base % 256 = 0 ∧
    (find_via b h w).2.pm_io_base / 256 = word / 256 := by
  have hst : (h.readWord dev.1 dev.2
      (find_via_switch ((h.readByte dev.1 dev.2 PM_CFG_REVID).value % 256))).status
        = PCIBIOS_SUCCESSFUL := by rw [hw]
  rw [find_via_ok b h w dev hp hf hb hst, hw]
  have hm : word % 65536 = word := Nat.mod_eq_of_lt hword
  have e := mask_high_byte word hword
  have e2 : word % 65536 &&& (0xff <<< 8) = word / 256 * 256 := by rw [hm]; exact e
  refine ⟨rfl, ?_, e2, ?_, ?_⟩
  · show word % 65536 &&& (0xff <<< 8) = word &&& 0xFF00
    rw [hm]; rfl
  · show (word % 65536 &&& (0xff <<< 8)) % 256 = 0
    rw [e2]; exact Nat.mul_mod_left _ _
  · show (word % 65536 &&& (0xff <<< 8)) / 256 = word / 256
    rw [e2]; omega

/-- C2 at a concrete bus: the word 0x50FF in field 0x48 gives base 0x5000. -/
theorem find_via_masks_low_byte_witness :
    (sampleHost 0x01 0x48 0x50FF 0).readWord 0 0x3b 0x48 = ⟨PCIBIOS_SUCCESSFUL, 0x50FF⟩ ∧
    (find_via .pci (sampleHost 0x01 0x48 0x50FF 0) (freshWorld .latched)).1 = 0 ∧
    (find_via .pci (sampleHost 0x01 0x48 0x50FF 0) (freshWorld .latched)).2.pm_io_base
      = 0x5000 :=
  ⟨by decide,
   (find_via_masks_low_byte .pci (sampleHost 0x01 0x48 0x50FF 0) (freshWorld .latched)
    (0, 0x3b) 0x50FF (by decide) rfl (by decide) (by decide) (by decide)).1,
   (find_via_masks_low_byte .pci (sampleHost 0x01 0x48 0x50FF 0) (freshWorld .latched)
    (0, 0x3b) 0x50FF (by decide) rfl (by decide) (by decide) (by decide)).2.1⟩

/-! ## The line primitives -/

/-- The world `bit_via_setscl` leaves. -/
theorem bit_via_setscl_eq (w : World) (state : Int) :
    bit_via_setscl w state =
      { w with
        ports := fun p =>
          if p = I2C_OUT w.pm_io_base then
            (if state ≠ 0 then w.ports (I2C_OUT w.pm_io_base) % 256 ||| I2C_SCL
             else w.ports (I2C_OUT w.pm_io_base) % 256 &&& bnot32 I2C_SCL) % 256
          else w.ports p
        trace := w.trace ++ [.inb (I2C_OUT w.pm_io_base),
          .outb ((if state ≠ 0 then w.ports (I2C_OUT w.pm_io_base) % 256 ||| I2C_SCL
             else w.ports (I2C_OUT w.pm_io_base) % 256 &&& bnot32 I2C_SCL) % 256)
            (I2C_OUT w.pm_io_base)] } := by
  simp [bit_via_setscl, inb, outb, World.log, portValue_out]

/-- The world `bit_via_setsda` leaves. -/
theorem bit_via_setsda_eq (w : World) (state : Int) :
    bit_via_setsda w state =
      { w with
        ports := fun p =>
          if p = I2C_OUT w.pm_io_base then
            (if state ≠ 0 then w.ports (I2C_OUT w.pm_io_base) % 256 ||| I2C_SDA
             else w.ports (I2C_OUT w.pm_io_base) % 256 &&& bnot32 I2C_SDA) % 256
          else w.ports p
        trace := w.trace ++ [.inb (I2C_OUT w.pm_io_base),
          .outb ((if state ≠ 0 then w.ports (I2C_OUT w.pm_io_base) % 256 ||| I2C_SDA
             else w.ports (I2C_OUT w.pm_io_base) % 256 &&& bnot32 I2C_SDA) % 256)
            (I2C_OUT w.pm_io_base)] } := by
  simp [bit_via_setsda, inb, outb, World.log, portValue_out]

/-- The output register after `bit_via_setscl`, as read back. -/
theorem setscl_out (w : World) (state : Int) :
    portValue (bit_via_setscl w state) (I2C_OUT w.pm_io_base) =
      (if state ≠ 0 then portValue w (I2C_OUT w.pm_io_base) ||| I2C_SCL
       else portValue w (I2C_OUT w.pm_io_base) &&& bnot32 I2C_SCL) % 256 := by
  have hb : (bit_via_setscl w state).pm_io_base = w.pm_io_base := by
    rw [bit_via_setscl_eq]
  have h := portValue_out (bit_via_setscl w state)
  rw [hb] at h
  rw [h, portValue_out, bit_via_setscl_eq]
  simp

/-- The output register after `bit_via_setsda`, as read back. -/
theorem setsda_out (w : World) (state : Int) :
    portValue (bit_via_setsda w state) (I2C_OUT w.pm_io_base) =
      (if state ≠ 0 then portValue w (I2C_OUT w.pm_io_base) ||| I2C_SDA
       else portValue w (I2C_OUT w.pm_io_base) &&& bnot32 I2C_SDA) % 256 := by
  have hb : (bit_via_setsda w state).pm_io_base = w.pm_io_base := by
    rw [bit_via_setsda_eq]
  have h := portValue_out (bit_via_setsda w state)
  rw [hb] at h
  rw [h, portValue_out, bit_via_setsda_eq]
  simp

/-- The call `bit_via_setscl` leaves every bit of the output register but bit 1. -/
theorem setscl_other_bits (w : World) (state : Int) (i : Nat) (hi : i ≠ 1) :
    (portValue (bit_via_setscl w state) (I2C_OUT w.pm_io_base)).testBit i =
      (portValue w (I2C_OUT w.pm_io_base)).testBit i := by
  rw [setscl_out]
  have hv := portValue_lt w (I2C_OUT w.pm_io_base)
  by_cases h8 : i < 8
  · have := (byte_bit_frame _ hv i h8).1 hi
    split_ifs
    · exact this.1
    · exact this.2
  · rw [byte_high_bits _ _ (by omega)]
    symm
    apply Nat.testBit_lt_two_pow
    calc _ < 2 ^ 8 := hv
      _ ≤ 2 ^ i := Nat.pow_le_pow_right (by norm_num) (by omega)

/-- The call `bit_via_setsda` leaves every bit of the output register but bit 2. -/
theorem setsda_other_bits (w : World) (state : Int) (i : Nat) (hi : i ≠ 2) :
    (portValue (bit_via_setsda w state) (I2C_OUT w.pm_io_base)).testBit i =
      (portValue w (I2C_OUT w.pm_io_base)).testBit i := by
  rw [setsda_out]
  have hv := portValue_lt w (I2C_OUT w.pm_io_base)
  by_cases h8 : i < 8
  · have := (byte_bit_frame _ hv i h8).2 hi
    split_ifs
    · exact this.1
    · exact this.2
  · rw [byte_high_bits _ _ (by omega)]
    symm
    apply Nat.testBit_lt_two_pow
    calc _ < 2 ^ 8 := hv
      _ ≤ 2 ^ i := Nat.pow_le_pow_right (by norm_num) (by omega)

/-- The call `bit_via_setscl` makes bit 1 of the output register follow `state`. -/
theorem setscl_own_bit (w : World) (state : Int) :
    (portValue (bit_via_setscl w state) (I2C_OUT w.pm_io_base)).testBit 1 =
      decide (state ≠ 0) := by
  rw [setscl_out]
  have hv := byte_bit_value _ (portValue_lt w (I2C_OUT w.pm_io_base))
  by_cases hs : state = 0
  · simp only [hs, ne_eq, not_true_eq_false, if_false, decide_False]
    exact hv.2.1
  · simp only [hs, ne_eq, not_false_eq_true, if_true, decide_True]
    exact hv.1

/-- The call `bit_via_setsda` makes bit 2 of the output register follow `state`. -/
theorem setsda_own_bit (w : World) (state : Int) :
    (portValue (bit_via_setsda w state) (I2C_OUT w.pm_io_base)).testBit 2 =
      decide (state ≠ 0) := by
  rw [setsda_out]
  have hv := byte_bit_value _ (portValue_lt w (I2C_OUT w.pm_io_base))
  by_cases hs : state = 0
  · simp only [hs, ne_eq, not_true_eq_false, if_false, decide_False]
    exact hv.2.2.2.1
  · simp only [hs, ne_eq, not_false_eq_true, if_true, decide_True]
    exact hv.2.2.1

/-- A line call does not move `pm_io_base`. -/
theorem LineCall.run_base (c : LineCall) (w : World) :
    (c.run w).pm_io_base = w.pm_io_base := by
  cases c <;> simp [LineCall.run, bit_via_setscl_eq, bit_via_setsda_eq]

/-- A sequence of line calls does not move `pm_io_base`. -/
theorem runCalls_base (cs : List LineCall) (w : World) :
    (runCalls cs w).pm_io_base = w.pm_io_base := by
  induction cs generalizing w with
  | nil => rfl
  | cons c cs ih =>
    show (runCalls cs (c.run w)).pm_io_base = w.pm_io_base
    rw [ih, LineCall.run_base]

/-- Calls that do not target the clock line leave bit 1 of the output register. -/
theorem runCalls_keep_scl (cs : List LineCall) (w : World)
    (h : ∀ c ∈ cs, c.isScl = false) :
    (portValue (runCalls cs w) (I2C_OUT w.pm_io_base)).testBit 1 =
      (portValue w (I2C_OUT w.pm_io_base)).testBit 1 := by
  induction cs generalizing w with
  | nil => rfl
  | cons c cs ih =>
    show (portValue (runCalls cs (c.run w)) (I2C_OUT w.pm_io_base)).testBit 1 = _
    have hb := LineCall.run_base c w
    have ih2 := ih (c.run w) (fun d hd => h d (List.mem_cons_of_mem _ hd))
    rw [hb] at ih2
    rw [ih2]
    cases c with
    | scl s => simpa [LineCall.isScl] using h (.scl s) (List.mem_cons_self _ _)
    | sda s => exact setsda_other_bits w s 1 (by decide)

/-- Calls that do not target the data line leave bit 2 of the output register. -/
theorem runCalls_keep_sda (cs : List LineCall) (w : World)
    (h : ∀ c ∈ cs, c.isSda = false) :
    (portValue (runCalls cs w) (I2C_OUT w.pm_io_base)).testBit 2 =
      (portValue w (I2C_OUT w.pm_io_base)).testBit 2 := by
  induction cs generalizing w with
  | nil => rfl
  | cons c cs ih =>
    show (portValue (runCalls cs (c.run w)) (I2C_OUT w.pm_io_base)).testBit 2 = _
    have hb := LineCall.run_base c w
    have ih2 := ih (c.run w) (fun d hd => h d (List.mem_cons_of_mem _ hd))
    rw [hb] at ih2
    rw [ih2]
    cases c with
    | scl s => exact setscl_other_bits w s 2 (by decide)
    | sda s => simpa [LineCall.isSda] using h (.sda s) (List.mem_cons_self _ _)

/-- Running `pre`, then one call, then `post`. -/
theorem runCalls_split (pre post : List LineCall) (c : LineCall) (w : World) :
    runCalls (pre ++ c :: post) w = runCalls post (c.run (runCalls pre w)) := by
  simp [runCalls, List.foldl_append]

/-- C3: bit independence.  `bit_via_setscl` writes no port but the output
register `pm_io_base+0x42` and changes at most its clock bit (bit 1, mask 0x02),
which afterwards follows `state`; `bit_via_setsda` likewise changes at most the
data bit (bit 2, mask 0x04).  Hence after any sequence of the two calls each of
the two bits holds the value of the last call that targeted it, and a bit no
call targeted holds its initial value. -/
theorem line_bits_independent :
    (∀ (w : World) (state : Int),
      (∀ p, p ≠ I2C_OUT w.pm_io_base → (bit_via_setscl w state).ports p = w.ports p) ∧
      (∀ e ∈ newEvents w (bit_via_setscl w state), e.isWrite = true →
        e.port? = some (I2C_OUT w.pm_io_base)) ∧
      (∀ i, i ≠ 1 →
        (portValue (bit_via_setscl w state) (I2C_OUT w.pm_io_base)).testBit i =
          (portValue w (I2C_OUT w.pm_io_base)).testBit i) ∧
      (portValue (bit_via_setscl w state) (I2C_OUT w.pm_io_base)).testBit 1 =
        decide (state ≠ 0)) ∧
    (∀ (w : World) (state : Int),
      (∀ p, p ≠ I2C_OUT w.pm_io_base → (bit_via_setsda w state).ports p = w.ports p) ∧
      (∀ e ∈ newEvents w (bit_via_setsda w state), e.isWrite = true →
        e.port? = some (I2C_OUT w.pm_io_base)) ∧
      (∀ i, i ≠ 2 →
        (portValue (bit_via_setsda w state) (I2C_OUT w.pm_io_base)).testBit i =
          (portValue w (I2C_OUT w.pm_io_base)).testBit i) ∧
      (portValue (bit_via_setsda w state) (I2C_OUT w.pm_io_base)).testBit 2 =
        decide (state ≠ 0)) ∧
    (∀ (w : World) (pre post : List LineCall) (s : Int),
      (∀ c ∈ post, c.isScl = false) →
      (portValue (runCalls (pre ++ .scl s :: post) w) (I2C_OUT w.pm_io_base)).testBit 1 =
        decide (s ≠ 0)) ∧
    (∀ (w : World) (pre post : List LineCall) (s : Int),
      (∀ c ∈ post, c.isSda = false) →
      (portValue (runCalls (pre ++ .sda s :: post) w) (I2C_OUT w.pm_io_base)).testBit 2 =
        decide (s ≠ 0)) ∧
    (∀ (w : World) (cs : List LineCall), (∀ c ∈ cs, c.isScl = false) →
      (portValue (runCalls cs w) (I2C_OUT w.pm_io_base)).testBit 1 =
        (portValue w (I2C_OUT w.pm_io_base)).testBit 1) ∧
    (∀ (w : World) (cs : List LineCall), (∀ c ∈ cs, c.isSda = false) →
      (portValue (runCalls cs w) (I2C_OUT w.pm_io_base)).testBit 2 =
        (portValue w (I2C_OUT w.pm_io_base)).testBit 2) := by
  refine ⟨fun w state => ⟨?_, ?_, setscl_other_bits w state, setscl_own_bit w state⟩,
    fun w state => ⟨?_, ?_, setsda_other_bits w state, setsda_own_bit w state⟩,
    ?_, ?_, fun w cs h => runCalls_keep_scl cs w h,
    fun w cs h => runCalls_keep_sda cs w h⟩
  · intro p hp
    rw [bit_via_setscl_eq]
    simp [hp]
  · intro e he hwr
    rw [bit_via_setscl_eq] at he
    simp only [newEvents, List.drop_left, List.mem_cons, List.mem_singleton,
      List.not_mem_nil, or_false] at he
    rcases he with rfl | rfl
    · simp [Event.isWrite] at hwr
    · rfl
  · intro p hp
    rw [bit_via_setsda_eq]
    simp [hp]
  · intro e he hwr
    rw [bit_via_setsda_eq] at he
    simp only [newEvents, List.drop_left, List.mem_cons, List.mem_singleton,
      List.not_mem_nil, or_false] at he
    rcases he with rfl | rfl
    · simp [Event.isWrite] at hwr
    · rfl
  · intro w pre post s hpost
    rw [runCalls_split]
    have hb : ((LineCall.scl s).run (runCalls pre w)).pm_io_base = w.pm_io_base := by
      rw [LineCall.run_base, runCalls_base]
    have h1 := runCalls_keep_scl post ((LineCall.scl s).run (runCalls pre w)) hpost
    rw [hb] at h1
    rw [h1]
    have h2 := setscl_own_bit (runCalls pre w) s
    rw [runCalls_base] at h2
    exact h2
  · intro w pre post s hpost
    rw [runCalls_split]
    have hb : ((LineCall.sda s).run (runCalls pre w)).pm_io_base = w.pm_io_base := by
      rw [LineCall.run_base, runCalls_base]
    have h1 := runCalls_keep_sda post ((LineCall.sda s).run (runCalls pre w)) hpost
    rw [hb] at h1
    rw [h1]
    have h2 := setsda_own_bit (runCalls pre w) s
    rw [runCalls_base] at h2
    exact h2

/-- C3 on a fresh world: after clock up, data down, clock down, data up the
output register holds clock low and data high. -/
theorem line_bits_independent_witness :
    (portValue (runCalls ([.scl 1, .sda 0] ++ .scl 0 :: [.sda 1]) (freshWorld .latched))
      (I2C_OUT (freshWorld .latched).pm_io_base)).testBit 1 = false ∧
    (portValue (runCalls ([.scl 1, .sda 0, .scl 0] ++ .sda 1 :: []) (freshWorld .latched))
      (I2C_OUT (freshWorld .latched).pm_io_base)).testBit 2 = true :=
  ⟨line_bits_independent.2.2.1 (freshWorld .latched) [.scl 1, .sda 0] [.sda 1] 0
      (by decide),
   line_bits_independent.2.2.2.1 (freshWorld .latched) [.scl 1, .sda 0, .scl 0] [] 1
      (by decide)⟩

/-- C4: loopback round trip.  With the input register wired to the output
register, `bit_via_setscl` with a non-zero `state` followed by `bit_via_getscl`
returns 1 and with `state = 0` returns 0, whatever the registers held before;
the same for `bit_via_setsda` and `bit_via_getsda`. -/
theorem loopback_round_trip (w : World) (state : Int) (hm : w.model = .loopback) :
    (bit_via_getscl (bit_via_setscl w state)).1 = (if state ≠ 0 then 1 else 0) ∧
    (bit_via_getsda (bit_via_setsda w state)).1 = (if state ≠ 0 then 1 else 0) := by
  have hv := byte_bit_value _ (Nat.mod_lt (w.ports (I2C_OUT w.pm_io_base)) (by norm_num))
  constructor
  · by_cases hs : state = 0
    · have h6 := hv.2.2.2.2.2.1
      simp [bit_via_getscl, bit_via_setscl_eq, inb, portValue, hm, World.log, hs, h6]
    · have h5 := hv.2.2.2.2.1
      simp [bit_via_getscl, bit_via_setscl_eq, inb, portValue, hm, World.log, hs,
        Ne.symm h5]
  · by_cases hs : state = 0
    · have h8 := hv.2.2.2.2.2.2.2
      simp [bit_via_getsda, bit_via_setsda_eq, inb, portValue, hm, World.log, hs, h8]
    · have h7 := hv.2.2.2.2.2.2.1
      simp [bit_via_getsda, bit_via_setsda_eq, inb, portValue, hm, World.log, hs,
        Ne.symm h7]

/-- C4 on a fresh loopback world: raising the clock line reads back as 1. -/
theorem loopback_round_trip_witness :
    (freshWorld .loopback).model = .loopback ∧
    (bit_via_getscl (bit_via_setscl (freshWorld .loopback) 1)).1 = 1 ∧
    (bit_via_getsda (bit_via_setsda (freshWorld .loopback) 1)).1 = 1 :=
  ⟨rfl, (loopback_round_trip (freshWorld .loopback) 1 rfl).1,
   (loopback_round_trip (freshWorld .loopback) 1 rfl).2⟩

/-! ## Initialization -/

/-- A locator that returns 0 has stored a masked word in `pm_io_base`, made
only PCI calls and changed nothing else. -/
theorem find_via_zero (b : Build) (h : Host) (w : World) (h0 : ¬ (find_via b h w).1 < 0) :
    ∃ base evs, find_via b h w = (0, { w with pm_io_base := base, trace := w.trace ++ evs }) ∧
      base % 256 = 0 ∧ base ≤ 0xFF00 ∧
      (∀ e ∈ evs, e.isPort = false ∧ e.isRegion = false ∧ e ≠ .addBus) ∧
      ∃ dev, h.find VENDOR DEVICE = some dev ∧
        base = (h.readWord dev.1 dev.2
          (find_via_switch ((h.readByte dev.1 dev.2 PM_CFG_REVID).value % 256))).value
            % 65536 &&& (0xff <<< 8) := by
  rcases locator_cases h with hfail | ⟨dev, hp, hf, hb, hw⟩
  · exfalso
    apply h0
    rw [(find_via_fail b h w hfail).1]
    decide
  · refine ⟨_, _, find_via_ok b h w dev hp hf hb hw, mask_low_byte_zero _, mask_le _, ?_,
      dev, hf, rfl⟩
    intro e he
    simp only [List.mem_cons, List.mem_singleton, List.not_mem_nil, or_false] at he
    rcases he with rfl | rfl | rfl | rfl <;> simp [Event.isPort, Event.isRegion]

/-- With a failing locator `init_i2c_via` stops after `find_via`. -/
theorem init_fail_eq (b : Build) (h : Host) (w : World) (hfail : LocatorFails h) :
    init_i2c_via b h w =
      (-ENODEV, printk (find_via b h w).2 "Error while reading PCI configuration\n") := by
  have hneg : (find_via b h w).1 < 0 := by rw [(find_via_fail b h w hfail).1]; decide
  simp [init_i2c_via, hneg]

/-- With a failing locator the run of `init_i2c_via` has no region, port or
engine call. -/
theorem init_fail_events (b : Build) (h : Host) (w : World) (hfail : LocatorFails h) :
    ∀ e ∈ newEvents w (init_i2c_via b h w).2,
      e.isRegion = false ∧ e.isPort = false ∧ e ≠ .addBus := by
  obtain ⟨-, -, -, -, -, evs, h6, h7⟩ := find_via_fail b h w hfail
  rw [init_fail_eq b h w hfail]
  intro e he
  simp only [newEvents, printk, World.log, h6, List.append_assoc, List.drop_left,
    List.mem_append, List.mem_singleton] at he
  rcases he with he | rfl
  · exact ⟨(h7 e he).2.1, (h7 e he).1, (h7 e he).2.2⟩
  · simp [Event.isPort, Event.isRegion]

/-- C8: if the locator fails for any of its four reasons (bus absent, no
matching device, revision byte unreadable, base word unreadable),
`init_i2c_via` of either build returns `-ENODEV` having only called the PCI
interface and `printk`: no I/O range is checked, reserved or released, no
port is read or written, the adapter is not offered to the engine, and the
ports, the reservations and the registration are as before. -/
theorem init_locator_failure (b : Build) (h : Host) (w : World) (hfail : LocatorFails h) :
    (init_i2c_via b h w).1 = -ENODEV ∧
    (∀ e ∈ newEvents w (init_i2c_via b h w).2,
      e.isRegion = false ∧ e.isPort = false ∧ e ≠ .addBus) ∧
    (init_i2c_via b h w).2.ports = w.ports ∧
    (init_i2c_via b h w).2.regions = w.regions ∧
    (init_i2c_via b h w).2.registered = w.registered := by
  obtain ⟨-, hports, hregions, hreg, -, -⟩ := find_via_fail b h w hfail
  have hinit := init_fail_eq b h w hfail
  refine ⟨?_, init_fail_events b h w hfail, ?_, ?_, ?_⟩
  · rw [hinit]
  · rw [hinit]
    exact hports
  · rw [hinit]
    exact hregions
  · rw [hinit]
    exact hreg

/-- C8 on a machine without a PCI bus. -/
theorem init_locator_failure_witness :
    LocatorFails { sampleHost 0 0x20 0x5000 0 with present := false } ∧
    (init_i2c_via .pci { sampleHost 0 0x20 0x5000 0 with present := false }
      (freshWorld .latched)).1 = -ENODEV :=
  ⟨Or.inl rfl,
   (init_locator_failure .pci { sampleHost 0 0x20 0x5000 0 with present := false }
    (freshWorld .latched) (Or.inl rfl)).1⟩

/-- C5: if the locator succeeds but the six ports from `pm_io_base+0x40` overlap
a reserved range, `init_i2c_via` returns `-EBUSY`; it writes no port, reserves
and releases nothing, does not offer the adapter to the engine, and leaves the
ports, the reservations and the registration as they were. -/
theorem init_region_busy (b : Build) (h : Host) (w : World)
    (hfind : (find_via b h w).1 = 0)
    (hbusy : (check_region (find_via b h w).2
      (I2C_DIR (find_via b h w).2.pm_io_base) IOSPACE).1 < 0) :
    (init_i2c_via b h w).1 = -EBUSY ∧
    (∀ e ∈ newEvents w (init_i2c_via b h w).2,
      e.isWrite = false ∧ e.isPort = false ∧ e.isReserve = false ∧ e ≠ .addBus) ∧
    (init_i2c_via b h w).2.ports = w.ports ∧
    (init_i2c_via b h w).2.regions = w.regions ∧
    (init_i2c_via b h w).2.registered = w.registered := by
  have h0 : ¬ (find_via b h w).1 < 0 := by rw [hfind]; decide
  obtain ⟨base, evs, hshape, -, -, hev, -⟩ := find_via_zero b h w h0
  have hinit : init_i2c_via b h w =
      (-EBUSY, printk (check_region (find_via b h w).2
        (I2C_DIR (find_via b h w).2.pm_io_base) IOSPACE).2
          "IO 0x%x-0x%x already in use\n") := by
    simp [init_i2c_via, h0, hbusy]
  rw [hinit, hshape]
  refine ⟨rfl, ?_, rfl, rfl, rfl⟩
  intro e he
  simp only [newEvents, printk, check_region, World.log, List.append_assoc, List.drop_left,
    List.mem_append, List.mem_singleton, List.mem_cons, List.not_mem_nil, or_false] at he
  rcases he with he | rfl | rfl
  · have := hev e he
    refine ⟨?_, this.1, ?_, this.2.2⟩
    · cases e <;> simp_all [Event.isWrite, Event.isPort]
    · cases e <;> simp_all [Event.isReserve, Event.isRegion]
  · simp [Event.isWrite, Event.isPort, Event.isReserve]
  · simp [Event.isWrite, Event.isPort, Event.isReserve]

/-- C5 with the range 0x5040..0x5045 already reserved by another driver. -/
theorem init_region_busy_witness :
    (find_via .pci (sampleHost 0x01 0x48 0x50FF 0)
      { freshWorld .latched with regions := [(0x5044, 4)] }).1 = 0 ∧
    (init_i2c_via .pci (sampleHost 0x01 0x48 0x50FF 0)
      { freshWorld .latched with regions := [(0x5044, 4)] }).1 = -EBUSY ∧
    (init_i2c_via .pci (sampleHost 0x01 0x48 0x50FF 0)
      { freshWorld .latched with regions := [(0x5044, 4)] }).2.regions = [(0x5044, 4)] :=
  ⟨by decide,
   (init_region_busy .pci (sampleHost 0x01 0x48 0x50FF 0)
    { freshWorld .latched with regions := [(0x5044, 4)] } (by decide) (by decide)).1,
   (init_region_busy .pci (sampleHost 0x01 0x48 0x50FF 0)
    { freshWorld .latched with regions := [(0x5044, 4)] } (by decide) (by decide)).2.2.2.1⟩

/-- What `init_i2c_via` does after a successful locator, outcome by outcome. -/
theorem init_after_find (b : Build) (h : Host) (w : World) (base : Nat) (evs : List Event)
    (hshape : find_via b h w
      = (0, { w with pm_io_base := base, trace := w.trace ++ evs })) :
    init_i2c_via b h w =
      if w.regions.any (overlaps (I2C_DIR base, IOSPACE)) then
        (-EBUSY, { w with
          pm_io_base := base
          trace := w.trace ++ (evs ++ [.checkRegion (I2C_DIR base) IOSPACE,
            .printk "IO 0x%x-0x%x already in use\n"]) })
      else if h.addBus = 0 then
        (0, { w with
          pm_io_base := base
          ports := raisedPorts w base
          regions := (I2C_DIR base, IOSPACE) :: w.regions
          registered := true
          trace := w.trace ++ (evs ++ claimEvents w base ++
            [.printk "Via i2c: Module succesfully loaded\n"]) })
      else
        (-ENODEV, { w with
          pm_io_base := base
          ports := fun p =>
            if p = I2C_DIR base then w.ports (I2C_DIR base) % 256 &&& 0xF9
            else raisedPorts w base p
          trace := w.trace ++ (evs ++ claimEvents w base ++
            [.inb (I2C_DIR base),
             .outb (w.ports (I2C_DIR base) % 256 &&& 0xF9) (I2C_DIR base),
             .releaseRegion (I2C_DIR base) IOSPACE,
             .printk "Via i2c: Algo-bit error, couldn't register bus\n"]) }) := by
  have hbyte : ∀ v, (v % 256 ||| I2C_SDA ||| I2C_SCL) % 256 = v % 256 ||| 0x06 := fun v =>
    (byte_both_bits _ (Nat.mod_lt v (by norm_num))).1
  have hclr : ∀ v, ((v % 256 ||| 0x06) % 256 &&& bnot32 (I2C_SDA ||| I2C_SCL)) % 256
      = v % 256 &&& 0xF9 := fun v => by
    have := byte_both_bits _ (Nat.mod_lt v (by norm_num))
    rw [this.2.2.2.1]
    exact this.2.2.1
  have hne1 : I2C_OUT base ≠ I2C_DIR base := by simp [I2C_OUT, I2C_DIR]
  have hne2 : I2C_DIR base ≠ I2C_IN base := by simp [I2C_IN, I2C_DIR]
  have hne3 : I2C_OUT base ≠ I2C_IN base := by simp [I2C_IN, I2C_OUT]
  have hpv : ∀ (w' : World) (p : Nat), w'.pm_io_base = base → p ≠ I2C_IN base →
      portValue w' p = w'.ports p % 256 := by
    intro w' p hb hp
    unfold portValue
    cases w'.model <;> simp [hb, hp]
  by_cases hbusy : w.regions.any (overlaps (I2C_DIR base, IOSPACE)) = true
  · rw [if_pos hbusy]
    have : (-EBUSY : Int) < 0 := by decide
    simp [init_i2c_via, hshape, check_region, hbusy, this, printk, World.log]
  · rw [if_neg hbusy]
    have hb2 : w.regions.any (overlaps (I2C_DIR base, IOSPACE)) = false := by
      simpa using hbusy
    by_cases hacc : h.addBus = 0
    · rw [if_pos hacc]
      simp [init_i2c_via, hshape, check_region, hb2, request_region, inb, outb,
        i2c_bit_add_bus, printk, World.log, hacc, hpv, hne1, hne2, hne3, hbyte,
        claimEvents]
      rfl
    · rw [if_neg hacc]
      simp [init_i2c_via, hshape, check_region, hb2, request_region, release_region, inb,
        outb, i2c_bit_add_bus, printk, World.log, hacc, hpv, hne1, hne1.symm, hne2, hne3,
        hbyte, hclr, claimEvents]
      rfl

/-- A locator that returned 0 passed all four steps. -/
theorem locator_ok_of_zero (b : Build) (h : Host) (w : World)
    (h0 : (find_via b h w).1 = 0) :
    ∃ dev, h.present = true ∧ h.find VENDOR DEVICE = some dev ∧
      (h.readByte dev.1 dev.2 PM_CFG_REVID).status = PCIBIOS_SUCCESSFUL ∧
      (h.readWord dev.1 dev.2
        (find_via_switch ((h.readByte dev.1 dev.2 PM_CFG_REVID).value % 256))).status
          = PCIBIOS_SUCCESSFUL := by
  rcases locator_cases h with hfail | hok
  · exfalso
    have := (find_via_fail b h w hfail).1
    rw [h0] at this
    revert this
    decide
  · exact hok

/-- C7: successful initialization.  If the locator succeeds with base `base`,
no reserved range overlaps the six ports from `base+0x40`, and the engine
accepts the adapter, then `init_i2c_via` returns 0, the reservations gain
exactly the range `(base+0x40, 6)`, the direction register `base+0x40` and
the output register `base+0x42` end with bits 0x02 and 0x04 set and their
other bits unchanged, no other port is written, and the adapter is
registered. -/
theorem init_success (b : Build) (h : Host) (w : World) (base : Nat)
    (hfind : (find_via b h w).1 = 0)
    (hbase : (find_via b h w).2.pm_io_base = base)
    (hfree : w.regions.any (overlaps (I2C_DIR base, IOSPACE)) = false)
    (hacc : h.addBus = 0) :
    (init_i2c_via b h w).1 = 0 ∧
    (init_i2c_via b h w).2.pm_io_base = base ∧
    (init_i2c_via b h w).2.regions = (base + 0x40, 6) :: w.regions ∧
    (init_i2c_via b h w).2.ports (base + 0x40) = w.ports (base + 0x40) % 256 ||| 0x06 ∧
    (init_i2c_via b h w).2.ports (base + 0x42) = w.ports (base + 0x42) % 256 ||| 0x06 ∧
    (init_i2c_via b h w).2.ports (base + 0x40) &&& 0x06 = 0x06 ∧
    (init_i2c_via b h w).2.ports (base + 0x42) &&& 0x06 = 0x06 ∧
    (init_i2c_via b h w).2.ports (base + 0x40) &&& 0xF9
      = w.ports (base + 0x40) % 256 &&& 0xF9 ∧
    (init_i2c_via b h w).2.ports (base + 0x42) &&& 0xF9
      = w.ports (base + 0x42) % 256 &&& 0xF9 ∧
    (∀ p, p ≠ base + 0x40 → p ≠ base + 0x42 →
      (init_i2c_via b h w).2.ports p = w.ports p) ∧
    (∀ e ∈ newEvents w (init_i2c_via b h w).2, e.isWrite = true →
      e.port? = some (base + 0x40) ∨ e.port? = some (base + 0x42)) ∧
    (init_i2c_via b h w).2.registered = true := by
  have h0 : ¬ (find_via b h w).1 < 0 := by rw [hfind]; decide
  obtain ⟨base', evs, hshape, -, -, hev, -⟩ := find_via_zero b h w h0
  have hb' : base' = base := by rw [hshape] at hbase; exact hbase
  subst hb'
  rw [init_after_find b h w base' evs hshape]
  rw [if_neg (by simp [hfree]), if_pos hacc]
  have hd := byte_both_bits _ (Nat.mod_lt (w.ports (base' + 0x40)) (by norm_num))
  have ho := byte_both_bits _ (Nat.mod_lt (w.ports (base' + 0x42)) (by norm_num))
  have e1 : raisedPorts w base' (base' + 0x40) = w.ports (base' + 0x40) % 256 ||| 0x06 := by
    simp [raisedPorts, I2C_OUT, I2C_DIR]
  have e2 : raisedPorts w base' (base' + 0x42) = w.ports (base' + 0x42) % 256 ||| 0x06 := by
    simp [raisedPorts, I2C_OUT]
  refine ⟨rfl, rfl, rfl, e1, e2, ?_, ?_, ?_, ?_, ?_, ?_, rfl⟩
  · show raisedPorts w base' (base' + 0x40) &&& 0x06 = 0x06
    rw [e1]; exact hd.2.2.2.2.1
  · show raisedPorts w base' (base' + 0x42) &&& 0x06 = 0x06
    rw [e2]; exact ho.2.2.2.2.1
  · show raisedPorts w base' (base' + 0x40) &&& 0xF9 = _
    rw [e1]; exact hd.2.2.2.2.2.2.1
  · show raisedPorts w base' (base' + 0x42) &&& 0xF9 = _
    rw [e2]; exact ho.2.2.2.2.2.2.1
  · intro p hp1 hp2
    show raisedPorts w base' p = w.ports p
    simp [raisedPorts, I2C_OUT, I2C_DIR, hp1, hp2]
  · intro e he hwr
    simp only [newEvents, List.drop_left, List.mem_append, claimEvents, List.mem_cons,
      List.mem_singleton, List.not_mem_nil, or_false] at he
    rcases he with (he | he) | he
    · have := (hev e he).1
      cases e <;> simp_all [Event.isWrite, Event.isPort]
    · rcases he with rfl | rfl | rfl | rfl | rfl | rfl | rfl <;>
        simp_all [Event.isWrite, Event.port?, I2C_DIR, I2C_OUT]
    · subst he
      simp [Event.isWrite] at hwr

/-- C7 on a fresh machine whose base field 0x48 holds 0x50FF. -/
theorem init_success_witness :
    (find_via .pci (sampleHost 0x01 0x48 0x50FF 0) (freshWorld .latched)).1 = 0 ∧
    (init_i2c_via .pci (sampleHost 0x01 0x48 0x50FF 0) (freshWorld .latched)).1 = 0 ∧
    (init_i2c_via .pci (sampleHost 0x01 0x48 0x50FF 0) (freshWorld .latched)).2.regions
      = [(0x5040, 6)] ∧
    (init_i2c_via .pci (sampleHost 0x01 0x48 0x50FF 0) (freshWorld .latched)).2.ports 0x5042
      = 0x06 :=
  ⟨by decide,
   (init_success .pci (sampleHost 0x01 0x48 0x50FF 0) (freshWorld .latched) 0x5000
    (by decide) (by decide) (by decide) rfl).1,
   (init_success .pci (sampleHost 0x01 0x48 0x50FF 0) (freshWorld .latched) 0x5000
    (by decide) (by decide) (by decide) rfl).2.2.1,
   (init_success .pci (sampleHost 0x01 0x48 0x50FF 0) (freshWorld .latched) 0x5000
    (by decide) (by decide) (by decide) rfl).2.2.2.2.1⟩

/-- C6: rollback.  If the locator succeeds with base `base`, the range is
free and the engine rejects the adapter, `init_i2c_via` returns `-ENODEV`
and releases the range: the reservations are as before, a new check of the
same range finds it free, and a second `init_i2c_via` on a machine whose
engine accepts returns 0.  The rollback write goes to the direction register
only: it ends as its original byte with bits 0x06 cleared, while the output
register keeps the bits 0x06 that initialization set. -/
theorem init_rollback (b : Build) (h : Host) (w : World) (base : Nat)
    (hfind : (find_via b h w).1 = 0)
    (hbase : (find_via b h w).2.pm_io_base = base)
    (hfree : w.regions.any (overlaps (I2C_DIR base, IOSPACE)) = false)
    (hrej : h.addBus ≠ 0) :
    (init_i2c_via b h w).1 = -ENODEV ∧
    (init_i2c_via b h w).1 < 0 ∧
    (init_i2c_via b h w).2.regions = w.regions ∧
    (check_region (init_i2c_via b h w).2 (base + 0x40) 6).1 = 0 ∧
    (init_i2c_via b { h with addBus := 0 } (init_i2c_via b h w).2).1 = 0 ∧
    (init_i2c_via b h w).2.ports (base + 0x40) = w.ports (base + 0x40) % 256 &&& 0xF9 ∧
    (init_i2c_via b h w).2.ports (base + 0x40) &&& 0x06 = 0 ∧
    (init_i2c_via b h w).2.ports (base + 0x42) = w.ports (base + 0x42) % 256 ||| 0x06 ∧
    (init_i2c_via b h w).2.ports (base + 0x42) &&& 0x06 = 0x06 ∧
    (∀ p, p ≠ base + 0x40 → p ≠ base + 0x42 →
      (init_i2c_via b h w).2.ports p = w.ports p) ∧
    (init_i2c_via b h w).2.registered = w.registered ∧
    (∃ evs, (∀ e ∈ evs, e.isPort = false ∧ e.isRegion = false ∧ e ≠ .addBus) ∧
      newEvents w (init_i2c_via b h w).2 = evs ++ claimEvents w base ++
        [.inb (base + 0x40),
         .outb (w.ports (base + 0x40) % 256 &&& 0xF9) (base + 0x40),
         .releaseRegion (base + 0x40) 6,
         .printk "Via i2c: Algo-bit error, couldn't register bus\n"]) := by
  have h0 : ¬ (find_via b h w).1 < 0 := by rw [hfind]; decide
  obtain ⟨base', evs, hshape, -, -, hev, -⟩ := find_via_zero b h w h0
  have hb' : base' = base := by rw [hshape] at hbase; exact hbase
  subst hb'
  obtain ⟨dev, hp, hf, hb, hw⟩ := locator_ok_of_zero b h w hfind
  have hinit := init_after_find b h w base' evs hshape
  rw [if_neg (by simp [hfree]), if_neg hrej] at hinit
  have hd := byte_both_bits _ (Nat.mod_lt (w.ports (base' + 0x40)) (by norm_num))
  have ho := byte_both_bits _ (Nat.mod_lt (w.ports (base' + 0x42)) (by norm_num))
  have hshape2 := find_via_ok b { h with addBus := 0 } (init_i2c_via b h w).2 dev hp hf hb hw
  have hbase2 : (h.readWord dev.1 dev.2
      (find_via_switch ((h.readByte dev.1 dev.2 PM_CFG_REVID).value % 256))).value
        % 65536 &&& (0xff <<< 8) = base' := by
    have := find_via_ok b h w dev hp hf hb hw
    rw [hshape] at this
    have := congrArg (fun r => r.2.pm_io_base) this
    exact this.symm
  have hinit2 := init_after_find b { h with addBus := 0 } (init_i2c_via b h w).2 _ _ hshape2
  rw [hbase2] at hinit2
  have hreg : (init_i2c_via b h w).2.regions = w.regions := by rw [hinit]
  rw [hreg, if_neg (by simp [hfree]), if_pos rfl] at hinit2
  refine ⟨by rw [hinit], by rw [hinit]; show (-ENODEV : Int) < 0; decide, hreg, ?_, by rw [hinit2], ?_, ?_, ?_, ?_, ?_,
    by rw [hinit], ⟨evs, hev, ?_⟩⟩
  · simp only [check_region, hreg]
    have : w.regions.any (overlaps (base' + 0x40, 6)) = false := hfree
    simp [this]
  · rw [hinit]
    simp [I2C_DIR]
  · rw [hinit]
    simp only [I2C_DIR, if_true]
    exact hd.2.2.2.2.2.1
  · rw [hinit]
    simp [I2C_DIR, I2C_OUT, raisedPorts]
  · rw [hinit]
    simp only [I2C_DIR, I2C_OUT, raisedPorts, if_true]
    rw [if_neg (by omega)]
    exact ho.2.2.2.2.1
  · intro p hp1 hp2
    rw [hinit]
    simp [I2C_DIR, I2C_OUT, raisedPorts, hp1, hp2]
  · rw [hinit]
    simp [newEvents, I2C_DIR, IOSPACE]

/-- C6 on a fresh machine whose engine answers -1. -/
theorem init_rollback_witness :
    (find_via .pci (sampleHost 0x01 0x48 0x50FF (-1)) (freshWorld .latched)).1 = 0 ∧
    (sampleHost 0x01 0x48 0x50FF (-1)).addBus ≠ 0 ∧
    (init_i2c_via .pci (sampleHost 0x01 0x48 0x50FF (-1)) (freshWorld .latched)).1
      = -ENODEV ∧
    (init_i2c_via .pci (sampleHost 0x01 0x48 0x50FF (-1)) (freshWorld .latched)).2.regions
      = [] ∧
    (init_i2c_via .pci (sampleHost 0x01 0x48 0x50FF (-1)) (freshWorld .latched)).2.ports
      0x5042 = 0x06 :=
  ⟨by decide, by decide,
   (init_rollback .pci (sampleHost 0x01 0x48 0x50FF (-1)) (freshWorld .latched) 0x5000
    (by decide) (by decide) (by decide) (by decide)).1,
   (init_rollback .pci (sampleHost 0x01 0x48 0x50FF (-1)) (freshWorld .latched) 0x5000
    (by decide) (by decide) (by decide) (by decide)).2.2.1,
   (init_rollback .pci (sampleHost 0x01 0x48 0x50FF (-1)) (freshWorld .latched) 0x5000
    (by decide) (by decide) (by decide) (by decide)).2.2.2.2.2.2.2.1⟩

/-- The base and the calls of `init_i2c_via` once the locator has succeeded. -/
theorem init_after_find_frame (b : Build) (h : Host) (w : World) (base : Nat)
    (evs : List Event)
    (hshape : find_via b h w
      = (0, { w with pm_io_base := base, trace := w.trace ++ evs })) :
    (init_i2c_via b h w).2.pm_io_base = base ∧
    ∃ tl, newEvents w (init_i2c_via b h w).2 = evs ++ tl ∧
      (∀ e ∈ tl, ∀ p, e.port? = some p →
        (p = I2C_DIR base ∨ p = I2C_OUT base) ∧
        Event.requestRegion (I2C_DIR base) IOSPACE IOTEXT ∈ tl) ∧
      (∀ e ∈ tl, ∀ s l, (e = .checkRegion s l ∨ e = .releaseRegion s l ∨
        ∃ n, e = .requestRegion s l n) → s = I2C_DIR base ∧ l = IOSPACE) := by
  rw [init_after_find b h w base evs hshape]
  split_ifs
  · refine ⟨rfl, _, by simp only [newEvents, List.drop_left]; rfl, ?_, ?_⟩
    · intro e he p hp
      simp only [List.mem_cons, List.mem_singleton, List.not_mem_nil, or_false] at he
      rcases he with rfl | rfl <;> simp [Event.port?] at hp
    · intro e he s l hsl
      simp only [List.mem_cons, List.mem_singleton, List.not_mem_nil, or_false] at he
      rcases he with rfl | rfl <;> simp at hsl
      simp [hsl]
  · refine ⟨rfl, _, by simp only [newEvents, List.drop_left, List.append_assoc]; rfl, ?_, ?_⟩
    · intro e he p hp
      simp only [claimEvents, List.cons_append, List.nil_append, List.mem_cons,
        List.mem_singleton, List.not_mem_nil, or_false] at he ⊢
      rcases he with rfl | rfl | rfl | rfl | rfl | rfl | rfl | rfl <;>
        simp [Event.port?] at hp <;> simp [hp]
    · intro e he s l hsl
      simp only [claimEvents, List.cons_append, List.nil_append, List.mem_cons,
        List.mem_singleton, List.not_mem_nil, or_false] at he
      rcases he with rfl | rfl | rfl | rfl | rfl | rfl | rfl | rfl <;> simp at hsl <;>
        simp [hsl]
  · refine ⟨rfl, _, by simp only [newEvents, List.drop_left, List.append_assoc]; rfl, ?_, ?_⟩
    · intro e he p hp
      simp only [claimEvents, List.cons_append, List.nil_append, List.mem_cons,
        List.mem_singleton, List.not_mem_nil, or_false] at he ⊢
      rcases he with rfl | rfl | rfl | rfl | rfl | rfl | rfl | rfl | rfl | rfl | rfl <;>
        simp [Event.port?] at hp <;> simp [hp]
    · intro e he s l hsl
      simp only [claimEvents, List.cons_append, List.nil_append, List.mem_cons,
        List.mem_singleton, List.not_mem_nil, or_false] at he
      rcases he with rfl | rfl | rfl | rfl | rfl | rfl | rfl | rfl | rfl | rfl | rfl <;>
        simp at hsl <;> simp [hsl]

/-- C9, the claim refuted: a base field holding 0x00FF masks to base 0, and
`init_i2c_via` does not abort: it returns 0, keeps `pm_io_base = 0`, reserves
the range `(0x40, 6)` and writes port 0x40. -/
theorem init_zero_base_not_rejected :
    (init_i2c_via .pci (sampleHost 0x01 0x48 0x00FF 0) (freshWorld .latched)).1 = 0 ∧
    (init_i2c_via .pci (sampleHost 0x01 0x48 0x00FF 0) (freshWorld .latched)).2.pm_io_base
      = 0 ∧
    (init_i2c_via .pci (sampleHost 0x01 0x48 0x00FF 0) (freshWorld .latched)).2.regions
      = [(0x40, 6)] ∧
    Event.outb 0x06 0x40 ∈
      (init_i2c_via .pci (sampleHost 0x01 0x48 0x00FF 0) (freshWorld .latched)).2.trace := by
  decide

/-- A region or port call in the run of `init_i2c_via` comes after a locator
that passed all four steps, behind its four PCI calls. -/
theorem init_event_after_find (b : Build) (h : Host) (w : World) (e : Event)
    (he : e ∈ newEvents w (init_i2c_via b h w).2)
    (hev : e.isRegion = true ∨ e.isPort = true) :
    ∃ dev, h.present = true ∧ h.find VENDOR DEVICE = some dev ∧
      (h.readByte dev.1 dev.2 PM_CFG_REVID).status = PCIBIOS_SUCCESSFUL ∧
      (h.readWord dev.1 dev.2
        (find_via_switch ((h.readByte dev.1 dev.2 PM_CFG_REVID).value % 256))).status
          = PCIBIOS_SUCCESSFUL ∧
      ∀ tl, newEvents w (init_i2c_via b h w).2 =
          [.pciPresent, .pciFind VENDOR DEVICE, .cfgByte dev.1 dev.2 PM_CFG_REVID,
           .cfgWord dev.1 dev.2
             (find_via_switch ((h.readByte dev.1 dev.2 PM_CFG_REVID).value % 256))] ++ tl →
        e ∈ tl := by
  rcases locator_cases h with hfail | ⟨dev, hp, hf, hb, hw⟩
  · exfalso
    have := init_fail_events b h w hfail e he
    rcases hev with hev | hev
    · rw [this.1] at hev; cases hev
    · rw [this.2.1] at hev; cases hev
  · refine ⟨dev, hp, hf, hb, hw, ?_⟩
    intro tl htl
    rw [htl] at he
    rcases List.mem_append.mp he with he | he
    · exfalso
      simp only [List.mem_cons, List.mem_singleton, List.not_mem_nil, or_false] at he
      rcases he with rfl | rfl | rfl | rfl <;>
        simp [Event.isRegion, Event.isPort] at hev
    · exact he

/-- C9 as amended: the base is validated by the locator's success only.
Whenever `init_i2c_via` checks, reserves or releases a range or accesses a
port, `find_via` has returned 0 and `pm_io_base` is the selected configuration
word with its low byte cleared (a multiple of 256, at most 0xFF00, possibly
0); the range is `(pm_io_base+0x40, 6)` and the port is `pm_io_base+0x40` or
`pm_io_base+0x42`. -/
theorem init_uses_resolved_base (b : Build) (h : Host) (w : World) (e : Event)
    (he : e ∈ newEvents w (init_i2c_via b h w).2)
    (hev : e.isRegion = true ∨ e.isPort = true) :
    (find_via b h w).1 = 0 ∧
    (init_i2c_via b h w).2.pm_io_base = (find_via b h w).2.pm_io_base ∧
    (init_i2c_via b h w).2.pm_io_base % 256 = 0 ∧
    (init_i2c_via b h w).2.pm_io_base ≤ 0xFF00 ∧
    (∃ dev, h.find VENDOR DEVICE = some dev ∧
      (init_i2c_via b h w).2.pm_io_base =
        (h.readWord dev.1 dev.2
          (find_via_switch ((h.readByte dev.1 dev.2 PM_CFG_REVID).value % 256))).value
            % 65536 &&& 0xFF00) ∧
    (∀ p, e.port? = some p →
      p = (init_i2c_via b h w).2.pm_io_base + 0x40 ∨
      p = (init_i2c_via b h w).2.pm_io_base + 0x42) ∧
    (∀ s l, (e = .checkRegion s l ∨ e = .releaseRegion s l ∨ ∃ n, e = .requestRegion s l n) →
      s = (init_i2c_via b h w).2.pm_io_base + 0x40 ∧ l = 6) := by
  obtain ⟨dev, hp, hf, hb, hw, hmem⟩ := init_event_after_find b h w e he hev
  have hshape := find_via_ok b h w dev hp hf hb hw
  obtain ⟨hbase, tl, htl, hports, hregs⟩ := init_after_find_frame b h w _ _ hshape
  have hetl : e ∈ tl := hmem tl htl
  rw [hbase]
  refine ⟨by rw [hshape], by rw [hshape], mask_low_byte_zero _, mask_le _, ⟨dev, hf, rfl⟩,
    ?_, ?_⟩
  · intro p hpp
    exact (hports e hetl p hpp).1
  · intro s l hsl
    exact hregs e hetl s l hsl

/-- C9 as amended, at the zero base: the range check of the run above is made
after a successful locator, with `pm_io_base` a multiple of 256. -/
theorem init_uses_resolved_base_witness :
    Event.checkRegion 0x40 6 ∈ newEvents (freshWorld .latched)
      (init_i2c_via .pci (sampleHost 0x01 0x48 0x00FF 0) (freshWorld .latched)).2 ∧
    (find_via .pci (sampleHost 0x01 0x48 0x00FF 0) (freshWorld .latched)).1 = 0 ∧
    (init_i2c_via .pci (sampleHost 0x01 0x48 0x00FF 0) (freshWorld .latched)).2.pm_io_base
      % 256 = 0 :=
  ⟨by decide,
   (init_uses_resolved_base .pci (sampleHost 0x01 0x48 0x00FF 0) (freshWorld .latched)
    (.checkRegion 0x40 6) (by decide) (Or.inl rfl)).1,
   (init_uses_resolved_base .pci (sampleHost 0x01 0x48 0x00FF 0) (freshWorld .latched)
    (.checkRegion 0x40 6) (by decide) (Or.inl rfl)).2.2.1⟩

/-- C10: for every 16-bit configuration word, with `pm_io_base = word AND
0xFF00`, the direction, output and input register addresses are pairwise
distinct, fit in 16 bits (the claimed range ends at most at 0xFF46) and lie in
`[pm_io_base+0x40, pm_io_base+0x40+6)`; every port the four line primitives
touch at that base lies in this interval, and every port `init_i2c_via`
touches lies in the range it has requested. -/
theorem register_ports_within_claim (word : Nat) (hword : word < 65536) :
    (I2C_DIR (word &&& 0xFF00) ≠ I2C_OUT (word &&& 0xFF00) ∧
     I2C_DIR (word &&& 0xFF00) ≠ I2C_IN (word &&& 0xFF00) ∧
     I2C_OUT (word &&& 0xFF00) ≠ I2C_IN (word &&& 0xFF00)) ∧
    (I2C_DIR (word &&& 0xFF00) + IOSPACE ≤ 0xFF46 ∧
     I2C_DIR (word &&& 0xFF00) + IOSPACE < 65536) ∧
    (∀ r ∈ [I2C_DIR (word &&& 0xFF00), I2C_OUT (word &&& 0xFF00),
        I2C_IN (word &&& 0xFF00)],
      I2C_DIR (word &&& 0xFF00) ≤ r ∧ r < I2C_DIR (word &&& 0xFF00) + IOSPACE) ∧
    (∀ (w : World) (state : Int), w.pm_io_base = word &&& 0xFF00 →
      ∀ e ∈ newEvents w (bit_via_setscl w state) ++ newEvents w (bit_via_setsda w state) ++
          newEvents w (bit_via_getscl w).2 ++ newEvents w (bit_via_getsda w).2,
        ∀ p, e.port? = some p →
          I2C_DIR (word &&& 0xFF00) ≤ p ∧ p < I2C_DIR (word &&& 0xFF00) + IOSPACE) ∧
    (∀ (b : Build) (h : Host) (w : World),
      ∀ e ∈ newEvents w (init_i2c_via b h w).2, ∀ p, e.port? = some p →
        I2C_DIR (init_i2c_via b h w).2.pm_io_base ≤ p ∧
        p < I2C_DIR (init_i2c_via b h w).2.pm_io_base + IOSPACE ∧
        (init_i2c_via b h w).2.pm_io_base + 0x46 ≤ 0xFF46 ∧
        Event.requestRegion (I2C_DIR (init_i2c_via b h w).2.pm_io_base) IOSPACE IOTEXT
          ∈ newEvents w (init_i2c_via b h w).2) := by
  have hle : word &&& 0xFF00 ≤ 0xFF00 := by
    have := mask_le word
    rwa [Nat.mod_eq_of_lt hword] at this
  refine ⟨?_, ?_, ?_, ?_, ?_⟩
  · simp [I2C_DIR, I2C_OUT, I2C_IN]
  · simp only [I2C_DIR, IOSPACE]
    omega
  · intro r hr
    simp only [List.mem_cons, List.mem_singleton, List.not_mem_nil, or_false] at hr
    rcases hr with rfl | rfl | rfl <;> simp only [I2C_DIR, I2C_OUT, I2C_IN, IOSPACE] <;> omega
  · intro w state hb e he p hp
    rw [bit_via_setscl_eq, bit_via_setsda_eq] at he
    simp only [bit_via_getscl, bit_via_getsda, inb, World.log, newEvents, List.drop_left,
      List.mem_append, List.mem_cons, List.mem_singleton, List.not_mem_nil, or_false] at he
    rw [hb] at he
    rcases he with ((((rfl | rfl) | (rfl | rfl)) | rfl) | rfl) <;>
      simp only [Event.port?, Option.some.injEq] at hp <;> subst hp <;>
      simp only [I2C_DIR, I2C_OUT, I2C_IN, IOSPACE] <;> omega
  · intro b h w e he p hp
    have hev : e.isRegion = true ∨ e.isPort = true := by
      right
      cases e <;> simp [Event.port?] at hp <;> rfl
    obtain ⟨dev, hp', hf, hb, hw, hmem⟩ := init_event_after_find b h w e he hev
    have hshape := find_via_ok b h w dev hp' hf hb hw
    obtain ⟨hbase, tl, htl, hports, -⟩ := init_after_find_frame b h w _ _ hshape
    have hetl : e ∈ tl := hmem tl htl
    have hmax : (init_i2c_via b h w).2.pm_io_base ≤ 0xFF00 := by
      rw [hbase]
      exact mask_le _
    have hport : p = (init_i2c_via b h w).2.pm_io_base + 0x40 ∨
        p = (init_i2c_via b h w).2.pm_io_base + 0x42 := by
      rw [hbase]
      exact (hports e hetl p hp).1
    have hreq := (hports e hetl p hp).2
    refine ⟨?_, ?_, by omega, ?_⟩
    · rcases hport with rfl | rfl <;> simp only [I2C_DIR] <;> omega
    · rcases hport with rfl | rfl <;> simp only [I2C_DIR, IOSPACE] <;> omega
    · rw [htl, hbase]
      exact List.mem_append_right _ hreq

/-- C10 at the word 0xFFFF: the input register sits at 0xFF44, below 0xFF46. -/
theorem register_ports_within_claim_witness :
    0xFFFF < 65536 ∧
    I2C_DIR (0xFFFF &&& 0xFF00) + IOSPACE ≤ 0xFF46 ∧
    I2C_OUT (0xFFFF &&& 0xFF00) ≠ I2C_IN (0xFFFF &&& 0xFF00) :=
  ⟨by decide, (register_ports_within_claim 0xFFFF (by decide)).2.1.1,
   (register_ports_within_claim 0xFFFF (by decide)).1.2.2⟩

end I2cVia
